import Mathlib

/-!
Verification of the balance cipher and proof-instruction codec of the
solana zk-token SDK (files `encryption/auth_encryption.rs` and
`zk_token_proof_instruction.rs`).

Bytes are modelled as `Nat` values below 256, byte strings as `List Nat`.
Machine integers are `Nat` with explicit reduction modulo powers of two.
The external AES-128-GCM-SIV cipher used by `AuthenticatedEncryption` is
implemented concretely following FIPS 197 and RFC 8452, with the random
nonce of `encrypt` made an explicit parameter.  The external SHA3-512 hash
used by `AeKey::from_seed` is implemented concretely following FIPS 202.
-/

/-! ## Byte-string utilities -/

/-- Little-endian byte encoding of a natural number into `len` bytes
(the shallow embedding of `u64::to_le_bytes` and friends). -/
def natToBytesLE : Nat → Nat → List Nat
  | 0, _ => []
  | len + 1, n => n % 256 :: natToBytesLE len (n / 256)

/-- Little-endian byte decoding (the shallow embedding of
`u64::from_le_bytes`). -/
def bytesToNatLE : List Nat → Nat
  | [] => 0
  | b :: bs => b + 256 * bytesToNatLE bs

/-- Pointwise XOR of two byte strings, truncating to the shorter one. -/
def xorBytes (a b : List Nat) : List Nat :=
  List.zipWith (fun x y => x ^^^ y) a b

theorem natToBytesLE_length (len n : Nat) : (natToBytesLE len n).length = len := by
  induction len generalizing n with
  | zero => rfl
  | succ l ih => simp [natToBytesLE, ih]

theorem xorBytes_length (a b : List Nat) :
    (xorBytes a b).length = min a.length b.length := by
  simp [xorBytes]

theorem xorBytes_xorBytes_cancel (a : List Nat) :
    ∀ b : List Nat, a.length ≤ b.length → xorBytes (xorBytes a b) b = a := by
  induction a with
  | nil => intro b _; rfl
  | cons x xs ih =>
    intro b hb
    cases b with
    | nil => simp at hb
    | cons y ys =>
      simp only [xorBytes, List.zipWith_cons_cons] at *
      rw [Nat.xor_cancel_right, ih ys (Nat.le_of_succ_le_succ hb)]

theorem bytesToNatLE_natToBytesLE (len : Nat) :
    ∀ n : Nat, bytesToNatLE (natToBytesLE len n) = n % 256 ^ len := by
  induction len with
  | zero => intro n; simp [natToBytesLE, bytesToNatLE, Nat.mod_one]
  | succ l ih =>
    intro n
    simp only [natToBytesLE, bytesToNatLE, ih]
    rw [pow_succ, Nat.mul_comm (256 ^ l) 256, Nat.mod_mul]

/-! ## AES-128 block cipher (FIPS 197)

The state is the 16-byte block in the column-major byte order of
FIPS 197: list index `i` holds the state entry at row `i % 4`,
column `i / 4`. -/

/-- The AES S-box as a flat 256-entry table. -/
def sboxTable : List Nat :=
  [0x63, 0x7c, 0x77, 0x7b, 0xf2, 0x6b, 0x6f, 0xc5, 0x30, 0x01, 0x67, 0x2b, 0xfe, 0xd7, 0xab, 0x76,
   0xca, 0x82, 0xc9, 0x7d, 0xfa, 0x59, 0x47, 0xf0, 0xad, 0xd4, 0xa2, 0xaf, 0x9c, 0xa4, 0x72, 0xc0,
   0xb7, 0xfd, 0x93, 0x26, 0x36, 0x3f, 0xf7, 0xcc, 0x34, 0xa5, 0xe5, 0xf1, 0x71, 0xd8, 0x31, 0x15,
   0x04, 0xc7, 0x23, 0xc3, 0x18, 0x96, 0x05, 0x9a, 0x07, 0x12, 0x80, 0xe2, 0xeb, 0x27, 0xb2, 0x75,
   0x09, 0x83, 0x2c, 0x1a, 0x1b, 0x6e, 0x5a, 0xa0, 0x52, 0x3b, 0xd6, 0xb3, 0x29, 0xe3, 0x2f, 0x84,
   0x53, 0xd1, 0x00, 0xed, 0x20, 0xfc, 0xb1, 0x5b, 0x6a, 0xcb, 0xbe, 0x39, 0x4a, 0x4c, 0x58, 0xcf,
   0xd0, 0xef, 0xaa, 0xfb, 0x43, 0x4d, 0x33, 0x85, 0x45, 0xf9, 0x02, 0x7f, 0x50, 0x3c, 0x9f, 0xa8,
   0x51, 0xa3, 0x40, 0x8f, 0x92, 0x9d, 0x38, 0xf5, 0xbc, 0xb6, 0xda, 0x21, 0x10, 0xff, 0xf3, 0xd2,
   0xcd, 0x0c, 0x13, 0xec, 0x5f, 0x97, 0x44, 0x17, 0xc4, 0xa7, 0x7e, 0x3d, 0x64, 0x5d, 0x19, 0x73,
   0x60, 0x81, 0x4f, 0xdc, 0x22, 0x2a, 0x90, 0x88, 0x46, 0xee, 0xb8, 0x14, 0xde, 0x5e, 0x0b, 0xdb,
   0xe0, 0x32, 0x3a, 0x0a, 0x49, 0x06, 0x24, 0x5c, 0xc2, 0xd3, 0xac, 0x62, 0x91, 0x95, 0xe4, 0x79,
   0xe7, 0xc8, 0x37, 0x6d, 0x8d, 0xd5, 0x4e, 0xa9, 0x6c, 0x56, 0xf4, 0xea, 0x65, 0x7a, 0xae, 0x08,
   0xba, 0x78, 0x25, 0x2e, 0x1c, 0xa6, 0xb4, 0xc6, 0xe8, 0xdd, 0x74, 0x1f, 0x4b, 0xbd, 0x8b, 0x8a,
   0x70, 0x3e, 0xb5, 0x66, 0x48, 0x03, 0xf6, 0x0e, 0x61, 0x35, 0x57, 0xb9, 0x86, 0xc1, 0x1d, 0x9e,
   0xe1, 0xf8, 0x98, 0x11, 0x69, 0xd9, 0x8e, 0x94, 0x9b, 0x1e, 0x87, 0xe9, 0xce, 0x55, 0x28, 0xdf,
   0x8c, 0xa1, 0x89, 0x0d, 0xbf, 0xe6, 0x42, 0x68, 0x41, 0x99, 0x2d, 0x0f, 0xb0, 0x54, 0xbb, 0x16]

/-- S-box lookup. -/
def sbox (b : Nat) : Nat := sboxTable.getD b 0

/-- Multiplication by x in GF(2^8) modulo the AES polynomial. -/
def xtime (b : Nat) : Nat :=
  if b < 128 then b * 2 else (b * 2) ^^^ 0x11b

/-- Multiplication by 3 in GF(2^8). -/
def mul3 (b : Nat) : Nat := xtime b ^^^ b

/-- Rotate a 4-byte word left by one byte. -/
def rotWord (w : List Nat) : List Nat :=
  (List.range 4).map (fun i => w.getD ((i + 1) % 4) 0)

/-- Apply the S-box to each byte of a 4-byte word. -/
def subWord (w : List Nat) : List Nat := w.map sbox

/-- XOR of two 4-byte words, always 4 bytes long. -/
def xorWord (a b : List Nat) : List Nat :=
  (List.range 4).map (fun i => a.getD i 0 ^^^ b.getD i 0)

/-- The round-constant word for round `i` of the key expansion. -/
def rconWord (i : Nat) : List Nat :=
  [[0, 0x01, 0x02, 0x04, 0x08, 0x10, 0x20, 0x40, 0x80, 0x1b, 0x36].getD i 0, 0, 0, 0]

/-- AES-128 key expansion: the 44 four-byte words derived from a
16-byte key (FIPS 197 section 5.2). -/
def expandKey (key : List Nat) : List (List Nat) :=
  (List.range 40).foldl
    (fun ws i =>
      let j := i + 4
      let prev := ws.getD (j - 1) []
      let back := ws.getD (j - 4) []
      let t := if j % 4 = 0 then xorWord (subWord (rotWord prev)) (rconWord (j / 4)) else prev
      ws ++ [xorWord back t])
    [key.take 4, (key.drop 4).take 4, (key.drop 8).take 4, (key.drop 12).take 4]

/-- Round key `i` (16 bytes) from the expanded key schedule. -/
def roundKey (ws : List (List Nat)) (i : Nat) : List Nat :=
  ws.getD (4 * i) [] ++ ws.getD (4 * i + 1) [] ++ ws.getD (4 * i + 2) [] ++ ws.getD (4 * i + 3) []

/-- AddRoundKey: XOR the state with a round key; the result always has
16 bytes. -/
def addRoundKey (s k : List Nat) : List Nat :=
  (List.range 16).map (fun i => s.getD i 0 ^^^ k.getD i 0)

/-- SubBytes: apply the S-box to every state byte. -/
def subBytes (s : List Nat) : List Nat := s.map sbox

/-- ShiftRows as a fixed permutation of the column-major byte order. -/
def shiftRows (s : List Nat) : List Nat :=
  [0, 5, 10, 15, 4, 9, 14, 3, 8, 13, 2, 7, 12, 1, 6, 11].map (fun i => s.getD i 0)

/-- MixColumns on the column-major state. -/
def mixColumns (s : List Nat) : List Nat :=
  (List.range 16).map (fun i =>
    let c := i / 4
    let a := fun k => s.getD (4 * c + k) 0
    match i % 4 with
    | 0 => xtime (a 0) ^^^ mul3 (a 1) ^^^ a 2 ^^^ a 3
    | 1 => a 0 ^^^ xtime (a 1) ^^^ mul3 (a 2) ^^^ a 3
    | 2 => a 0 ^^^ a 1 ^^^ xtime (a 2) ^^^ mul3 (a 3)
    | _ => mul3 (a 0) ^^^ a 1 ^^^ a 2 ^^^ xtime (a 3))

/-- AES-128 encryption of one 16-byte block (FIPS 197 section 5.1). -/
def aes128EncryptBlock (key block : List Nat) : List Nat :=
  let ws := expandKey key
  let s0 := addRoundKey block (roundKey ws 0)
  let s9 := (List.range 9).foldl
    (fun s i => addRoundKey (mixColumns (shiftRows (subBytes s))) (roundKey ws (i + 1))) s0
  addRoundKey (shiftRows (subBytes s9)) (roundKey ws 10)

theorem aes128EncryptBlock_length (key block : List Nat) :
    (aes128EncryptBlock key block).length = 16 := by
  simp [aes128EncryptBlock, addRoundKey]

/-! ## POLYVAL and AES-128-GCM-SIV (RFC 8452)

Field elements of GF(2^128) are naturals below 2^128; bit `i` is the
coefficient of x^i, matching the little-endian byte convention of
POLYVAL. -/

/-- Multiplication by x modulo x^128 + x^127 + x^126 + x^121 + 1. -/
def polyvalMulX (a : Nat) : Nat :=
  if a.testBit 127 then (a * 2) % 2 ^ 128 ^^^ (2 ^ 127 + 2 ^ 126 + 2 ^ 121 + 1)
  else a * 2

/-- Carryless multiplication in GF(2^128) modulo the POLYVAL polynomial. -/
def gfMul128 (a b : Nat) : Nat :=
  ((List.range 128).foldl
    (fun p i => (if b.testBit i then p.1 ^^^ p.2 else p.1, polyvalMulX p.2))
    (0, a)).1

/-- The POLYVAL dot operation: a * b * x^-128, where x^-128 equals
x^127 + x^124 + x^121 + x^114 + 1 in this field. -/
def dotGF (a b : Nat) : Nat :=
  gfMul128 (gfMul128 a b) (2 ^ 127 + 2 ^ 124 + 2 ^ 121 + 2 ^ 114 + 1)

/-- POLYVAL accumulation over 16-byte blocks, with explicit fuel. -/
def polyvalAux (h : Nat) : Nat → Nat → List Nat → Nat
  | _, acc, [] => acc
  | 0, acc, _ => acc
  | fuel + 1, acc, msg =>
    polyvalAux h fuel (dotGF (acc ^^^ bytesToNatLE (msg.take 16)) h) (msg.drop 16)

/-- POLYVAL of a byte string whose length is a multiple of 16. -/
def polyval (h : Nat) (msg : List Nat) : Nat :=
  polyvalAux h msg.length 0 msg

/-- Zero-pad a byte string to a multiple of 16 bytes. -/
def padTo16 (m : List Nat) : List Nat :=
  m ++ List.replicate ((16 - m.length % 16) % 16) 0

/-- One 8-byte half of a per-nonce GCM-SIV subkey: the first eight bytes
of the AES encryption of the 4-byte little-endian counter followed by
the 12-byte nonce. -/
def gcmSivSubkey (key nonce : List Nat) (c0 c1 : Nat) : List Nat :=
  (aes128EncryptBlock key (natToBytesLE 4 c0 ++ nonce)).take 8 ++
    (aes128EncryptBlock key (natToBytesLE 4 c1 ++ nonce)).take 8

/-- The GCM-SIV authentication tag over a plaintext with empty
associated data (RFC 8452 section 4). -/
def gcmSivTag (authKey encKey nonce pt : List Nat) : List Nat :=
  let lengthBlock := natToBytesLE 8 0 ++ natToBytesLE 8 (8 * pt.length)
  let ss := natToBytesLE 16 (polyval (bytesToNatLE authKey) (padTo16 pt ++ lengthBlock))
  let nonced := (List.range 16).map
    (fun i => if i < 12 then ss.getD i 0 ^^^ nonce.getD i 0 else ss.getD i 0)
  let cleared := (List.range 16).map
    (fun i => if i = 15 then nonced.getD i 0 &&& 0x7f else nonced.getD i 0)
  aes128EncryptBlock encKey cleared

/-- Turn a tag into the initial CTR block by setting the top bit of the
last byte. -/
def setCtrMsb (tag : List Nat) : List Nat :=
  (List.range 16).map (fun i => if i = 15 then tag.getD i 0 ||| 0x80 else tag.getD i 0)

/-- Increment the 32-bit little-endian counter in the first four bytes
of a CTR block. -/
def incCounterBlock (blk : List Nat) : List Nat :=
  natToBytesLE 4 ((bytesToNatLE (blk.take 4) + 1) % 2 ^ 32) ++ blk.drop 4

/-- The CTR keystream: `n` AES blocks starting from `blk`. -/
def ctrKeystream (key : List Nat) : List Nat → Nat → List Nat
  | _, 0 => []
  | blk, n + 1 => aes128EncryptBlock key blk ++ ctrKeystream key (incCounterBlock blk) n

/-- AES-128-GCM-SIV encryption with empty associated data: the CTR
encryption of the plaintext followed by the 16-byte tag. -/
def aesGcmSivEncrypt (key nonce pt : List Nat) : List Nat :=
  let authKey := gcmSivSubkey key nonce 0 1
  let encKey := gcmSivSubkey key nonce 2 3
  let tag := gcmSivTag authKey encKey nonce pt
  let ks := ctrKeystream encKey (setCtrMsb tag) ((pt.length + 15) / 16)
  xorBytes pt (ks.take pt.length) ++ tag

/-- AES-128-GCM-SIV decryption with empty associated data: recover the
plaintext from the CTR stream, recompute the tag and compare. -/
def aesGcmSivDecrypt (key nonce ct : List Nat) : Option (List Nat) :=
  if ct.length < 16 then none
  else
    let authKey := gcmSivSubkey key nonce 0 1
    let encKey := gcmSivSubkey key nonce 2 3
    let tag := ct.drop (ct.length - 16)
    let body := ct.take (ct.length - 16)
    let ks := ctrKeystream encKey (setCtrMsb tag) ((body.length + 15) / 16)
    let pt := xorBytes body (ks.take body.length)
    if gcmSivTag authKey encKey nonce pt = tag then some pt else none

theorem ctrKeystream_length (key : List Nat) :
    ∀ (n : Nat) (blk : List Nat), (ctrKeystream key blk n).length = 16 * n := by
  intro n
  induction n with
  | zero => intro blk; rfl
  | succ m ih =>
    intro blk
    simp [ctrKeystream, aes128EncryptBlock_length, ih]
    ring

theorem gcmSivTag_length (authKey encKey nonce pt : List Nat) :
    (gcmSivTag authKey encKey nonce pt).length = 16 := by
  simp [gcmSivTag, aes128EncryptBlock_length]

theorem aesGcmSiv_roundtrip (key nonce pt : List Nat) :
    aesGcmSivDecrypt key nonce (aesGcmSivEncrypt key nonce pt) = some pt := by
  have hnum : pt.length ≤ 16 * ((pt.length + 15) / 16) := by omega
  set authKey := gcmSivSubkey key nonce 0 1 with hak
  set encKey := gcmSivSubkey key nonce 2 3 with hek
  set tag := gcmSivTag authKey encKey nonce pt with htagdef
  set ks := ctrKeystream encKey (setCtrMsb tag) ((pt.length + 15) / 16) with hksdef
  have htk : (ks.take pt.length).length = pt.length := by
    rw [List.length_take, hksdef, ctrKeystream_length]
    exact Nat.min_eq_left hnum
  set body := xorBytes pt (ks.take pt.length) with hbodydef
  have hbody : body.length = pt.length := by
    rw [hbodydef, xorBytes_length, htk, Nat.min_self]
  have htaglen : tag.length = 16 := by rw [htagdef]; exact gcmSivTag_length _ _ _ _
  have henc : aesGcmSivEncrypt key nonce pt = body ++ tag := rfl
  rw [henc]
  have hct : (body ++ tag).length = pt.length + 16 := by
    rw [List.length_append, hbody, htaglen]
  rw [aesGcmSivDecrypt, hct]
  have hnl : ¬ (pt.length + 16 < 16) := by omega
  rw [if_neg hnl]
  have hsub : pt.length + 16 - 16 = pt.length := by omega
  rw [hsub]
  have hdrop : (body ++ tag).drop pt.length = tag := by
    rw [← hbody]; exact List.drop_left body tag
  have htake : (body ++ tag).take pt.length = body := by
    rw [← hbody]; exact List.take_left body tag
  simp only [hdrop, htake, hbody, ← hak, ← hek]
  rw [← hksdef]
  have hcancel : xorBytes body (ks.take pt.length) = pt := by
    rw [hbodydef]
    exact xorBytes_xorBytes_cancel pt (ks.take pt.length) (le_of_eq htk.symm)
  rw [hcancel, if_pos htagdef.symm]

/-! ## SHA3-512 (FIPS 202)

The Keccak state is a list of 25 lanes of 64 bits each; lane (x, y)
lives at index x + 5 * y. -/

/-- Rotate a 64-bit lane left by `n` bits (0 ≤ n < 64). -/
def rotl64 (x n : Nat) : Nat :=
  ((x <<< n) % 2 ^ 64) ||| (x >>> (64 - n))

/-- The theta step of a Keccak round. -/
def keccakTheta (A : List Nat) : List Nat :=
  let C := fun x => A.getD x 0 ^^^ A.getD (x + 5) 0 ^^^ A.getD (x + 10) 0 ^^^
    A.getD (x + 15) 0 ^^^ A.getD (x + 20) 0
  let D := fun x => C ((x + 4) % 5) ^^^ rotl64 (C ((x + 1) % 5)) 1
  (List.range 25).map (fun i => A.getD i 0 ^^^ D (i % 5))

/-- The rho rotation offset of the lane at index x + 5 * y
(table 2 of FIPS 202, flattened). -/
def keccakRhoOffset : Nat → Nat
  | 1 => 1
  | 2 => 62
  | 3 => 28
  | 4 => 27
  | 5 => 36
  | 6 => 44
  | 7 => 6
  | 8 => 55
  | 9 => 20
  | 10 => 3
  | 11 => 10
  | 12 => 43
  | 13 => 25
  | 14 => 39
  | 15 => 41
  | 16 => 45
  | 17 => 15
  | 18 => 21
  | 19 => 8
  | 20 => 18
  | 21 => 2
  | 22 => 61
  | 23 => 56
  | 24 => 14
  | _ => 0

/-- The combined rho and pi steps: output lane (X, Y) is the rotated
input lane (x, y) with y = X and x = 3 * (Y + 2 * X) mod 5. -/
def keccakRhoPi (A : List Nat) : List Nat :=
  (List.range 25).map (fun j =>
    let X := j % 5
    let Y := j / 5
    let src := (3 * (Y + 2 * X)) % 5 + 5 * X
    rotl64 (A.getD src 0) (keccakRhoOffset src))

/-- The chi step of a Keccak round. -/
def keccakChi (A : List Nat) : List Nat :=
  (List.range 25).map (fun j =>
    let x := j % 5
    let y := j / 5
    A.getD j 0 ^^^ ((A.getD ((x + 1) % 5 + 5 * y) 0 ^^^ (2 ^ 64 - 1)) &&&
      A.getD ((x + 2) % 5 + 5 * y) 0))

/-- The iota round constant of round `r` of Keccak-f[1600]. -/
def keccakRC : Nat → Nat
  | 0 => 0x1
  | 1 => 0x8082
  | 2 => 0x800000000000808a
  | 3 => 0x8000000080008000
  | 4 => 0x808b
  | 5 => 0x80000001
  | 6 => 0x8000000080008081
  | 7 => 0x8000000000008009
  | 8 => 0x8a
  | 9 => 0x88
  | 10 => 0x80008009
  | 11 => 0x8000000a
  | 12 => 0x8000808b
  | 13 => 0x800000000000008b
  | 14 => 0x8000000000008089
  | 15 => 0x8000000000008003
  | 16 => 0x8000000000008002
  | 17 => 0x8000000000000080
  | 18 => 0x800a
  | 19 => 0x800000008000000a
  | 20 => 0x8000000080008081
  | 21 => 0x8000000000008080
  | 22 => 0x80000001
  | _ => 0x8000000080008008

/-- One Keccak round: theta, rho, pi, chi, then iota with constant `rc`. -/
def keccakRound (A : List Nat) (rc : Nat) : List Nat :=
  let B := keccakChi (keccakRhoPi (keccakTheta A))
  (List.range 25).map (fun j => if j = 0 then B.getD 0 0 ^^^ rc else B.getD j 0)

/-- The Keccak-f[1600] permutation: 24 rounds. -/
def keccakF (A : List Nat) : List Nat :=
  (List.range 24).foldl (fun s r => keccakRound s (keccakRC r)) A

/-- SHA3 padding for the 72-byte rate of SHA3-512: domain bits 0b110
then 10*1. -/
def sha3Pad (m : List Nat) : List Nat :=
  let r := 72 - m.length % 72
  if r = 1 then m ++ [0x86] else m ++ [0x06] ++ List.replicate (r - 2) 0 ++ [0x80]

/-- Absorb a padded message into the sponge, 72 bytes (9 lanes) at a
time, with explicit fuel. -/
def sha3Absorb : Nat → List Nat → List Nat → List Nat
  | _, A, [] => A
  | 0, A, _ => A
  | fuel + 1, A, msg =>
    let blk := msg.take 72
    let A2 := (List.range 25).map (fun j =>
      if j < 9 then A.getD j 0 ^^^ bytesToNatLE ((blk.drop (8 * j)).take 8) else A.getD j 0)
    sha3Absorb fuel (keccakF A2) (msg.drop 72)

/-- SHA3-512: pad, absorb, and squeeze the 64-byte digest from the
first eight lanes. -/
def sha3_512 (m : List Nat) : List Nat :=
  let padded := sha3Pad m
  let A := sha3Absorb padded.length (List.replicate 25 0) padded
  ((List.range 8).map (fun j => natToBytesLE 8 (A.getD j 0))).flatten

/-! ## The balance cipher (`encryption/auth_encryption.rs`)

`AeKey` wraps 16 key bytes, `AeCiphertext` a 12-byte nonce and a 24-byte
ciphertext (8 encrypted bytes plus the 16-byte tag).  Fixed-size Rust
arrays are modelled as lists whose lengths appear as hypotheses. -/

/-- A 16-byte authenticated-encryption key (`pub struct AeKey([u8; 16])`). -/
structure AeKey where
  bytes : List Nat
deriving DecidableEq

/-- An authenticated-encryption nonce and ciphertext
(`pub struct AeCiphertext`). -/
structure AeCiphertext where
  nonce : List Nat
  ciphertext : List Nat
deriving DecidableEq

/-- `AuthenticatedEncryption::encrypt`: serialize the balance as 8
little-endian bytes and run AES-128-GCM-SIV.  The fresh random nonce
drawn by the source is an explicit parameter here. -/
def AuthenticatedEncryption.encrypt (key : AeKey) (nonce : List Nat) (balance : Nat) :
    AeCiphertext :=
  let plaintext := natToBytesLE 8 balance
  AeCiphertext.mk nonce (aesGcmSivEncrypt key.bytes nonce plaintext)

/-- `AuthenticatedEncryption::decrypt`: run the inverse transform and
read the balance back as a little-endian u64.  The source unwraps the
8-byte plaintext conversion, which can never fail for the 24-byte
ciphertexts this module produces; the unreachable failure is modelled
as `none`. -/
def AuthenticatedEncryption.decrypt (key : AeKey) (ct : AeCiphertext) : Option Nat :=
  match aesGcmSivDecrypt key.bytes ct.nonce ct.ciphertext with
  | some plaintext => if plaintext.length = 8 then some (bytesToNatLE plaintext) else none
  | none => none

/-- `AeKey::encrypt`. -/
def AeKey.encrypt (key : AeKey) (nonce : List Nat) (amount : Nat) : AeCiphertext :=
  AuthenticatedEncryption.encrypt key nonce amount

/-- `AeKey::decrypt`. -/
def AeKey.decrypt (key : AeKey) (ct : AeCiphertext) : Option Nat :=
  AuthenticatedEncryption.decrypt key ct

/-- `AeCiphertext::decrypt`. -/
def AeCiphertext.decrypt (ct : AeCiphertext) (key : AeKey) : Option Nat :=
  AuthenticatedEncryption.decrypt key ct

/-- `AeCiphertext::to_bytes`: the canonical 36-byte form, nonce first. -/
def AeCiphertext.to_bytes (ct : AeCiphertext) : List Nat :=
  ct.nonce ++ ct.ciphertext

/-- `AeCiphertext::from_bytes`: reject any length other than 36, then
split into the 12-byte nonce and the 24-byte ciphertext. -/
def AeCiphertext.from_bytes (bytes : List Nat) : Option AeCiphertext :=
  if bytes.length = 36 then some (AeCiphertext.mk (bytes.take 12) (bytes.drop 12)) else none

/-- The signer error type; `custom` embeds
`SignerError::Custom(String)` and `other` stands for every other
variant of the external `SignerError` enum. -/
inductive SignerError where
  | custom (msg : String)
  | other (msg : String)
deriving DecidableEq

/-- The default (all-zero) 64-byte signature
(`Signature::default()`). -/
def defaultSignature : List Nat := List.replicate 64 0

/-- The external `Signer` trait: a fallible pubkey accessor and a
fallible message-signing operation.  Pubkeys are opaque naturals. -/
structure SignerModel where
  tryPubkey : Except SignerError Nat
  trySignMessage : List Nat → Except SignerError (List Nat)

/-- Modelled from the spec: the source signs the serialization of
`Message::new` over one instruction with program id `address`, data
`b"AeKey"` and payer `pubkey`; `Message` serialization lives in the
external solana-sdk.  The spec requires only a fixed, reproducible
message binding the address to a fixed domain-separation label, which
this concrete encoding provides. -/
def aeKeyDeriveMessage (address pubkey : Nat) : List Nat :=
  [0x41, 0x65, 0x4b, 0x65, 0x79] ++ natToBytesLE 32 address ++ natToBytesLE 32 pubkey

/-- `AeKey::new`: obtain the signer pubkey, sign the derivation
message, reject the degenerate default signature, and otherwise take
the first 16 signature bytes as the key. -/
def AeKey.new (signer : SignerModel) (address : Nat) : Except SignerError AeKey :=
  match signer.tryPubkey with
  | .error e => .error e
  | .ok pubkey =>
    match signer.trySignMessage (aeKeyDeriveMessage address pubkey) with
    | .error e => .error e
    | .ok signature =>
      if signature = defaultSignature then .error (.custom "Rejecting default signature")
      else .ok (AeKey.mk (signature.take 16))

/-- `AeKey::from_seed` (`SeedDerivable`): reject seeds shorter than 16
bytes, otherwise key = first 16 bytes of the SHA3-512 digest. -/
def AeKey.from_seed (seed : List Nat) : Except String AeKey :=
  if seed.length < 16 then .error "Seed is too short"
  else .ok (AeKey.mk ((sha3_512 seed).take 16))

/-- A minimal JSON value universe for the key-file form. -/
inductive JsonValue where
  | num (n : Nat)
  | arr (elems : List JsonValue)

/-- Modelled from the spec: serde_json is external to src; the key file
form is a JSON array of 16 integers 0-255 (spec section 6), modelled at
the level of JSON values.  `EncodableKey::write` serializes the 16 raw
key bytes as a JSON array. -/
def AeKey.write (key : AeKey) : JsonValue :=
  JsonValue.arr (key.bytes.map JsonValue.num)

/-- A JSON value parsed back into one byte; anything but an integer
0-255 is rejected, as serde does when deserializing `[u8; 16]`. -/
def jsonByte : JsonValue → Option Nat
  | .num n => if n < 256 then some n else none
  | .arr _ => none

/-- Modelled from the spec: `EncodableKey::read` deserializes a JSON
array of exactly 16 integers 0-255 into a key and fails on any other
shape, as serde does for the `[u8; 16]` target type. -/
def AeKey.read (j : JsonValue) : Option AeKey :=
  match j with
  | .arr elems =>
    match elems.mapM jsonByte with
    | some bytes => if bytes.length = 16 then some (AeKey.mk bytes) else none
    | none => none
  | .num _ => none

/-! ## The proof-instruction codec (`zk_token_proof_instruction.rs`)

Pubkeys are opaque naturals.  The fixed-size Pod proof payloads are
modelled by their raw byte strings: `bytemuck::bytes_of` is the
identity, and `bytemuck::try_from_bytes::<T>` succeeds exactly on
buffers whose length is the fixed size of `T`. -/

/-- The closed enumeration of proof-program operations, in declaration
order, with `repr(u8)` discriminants 0 to 6. -/
inductive ProofInstruction where
  | CloseContextState
  | VerifyZeroBalance
  | VerifyWithdraw
  | VerifyCiphertextCiphertextEquality
  | VerifyTransfer
  | VerifyTransferWithFee
  | VerifyPubkeyValidity
deriving DecidableEq

/-- The derived `ToPrimitive::to_u8`: the declaration ordinal. -/
def ProofInstruction.toU8 : ProofInstruction → Nat
  | .CloseContextState => 0
  | .VerifyZeroBalance => 1
  | .VerifyWithdraw => 2
  | .VerifyCiphertextCiphertextEquality => 3
  | .VerifyTransfer => 4
  | .VerifyTransferWithFee => 5
  | .VerifyPubkeyValidity => 6

/-- The derived `FromPrimitive::from_u8`: exact match on the declared
discriminants, `none` otherwise. -/
def ProofInstruction.fromU8 (n : Nat) : Option ProofInstruction :=
  if n = 0 then some .CloseContextState
  else if n = 1 then some .VerifyZeroBalance
  else if n = 2 then some .VerifyWithdraw
  else if n = 3 then some .VerifyCiphertextCiphertextEquality
  else if n = 4 then some .VerifyTransfer
  else if n = 5 then some .VerifyTransferWithFee
  else if n = 6 then some .VerifyPubkeyValidity
  else none

/-- An account reference of an instruction (`solana AccountMeta`). -/
structure AccountMeta where
  pubkey : Nat
  is_signer : Bool
  is_writable : Bool
deriving DecidableEq

/-- `AccountMeta::new`: writable account reference. -/
def AccountMeta.new (pubkey : Nat) ( is_signer : Bool) : AccountMeta :=
  AccountMeta.mk pubkey is_signer true

/-- `AccountMeta::new_readonly`: read-only account reference. -/
def AccountMeta.new_readonly (pubkey : Nat) ( is_signer : Bool) : AccountMeta :=
  AccountMeta.mk pubkey is_signer false

/-- An output instruction: target program, ordered account references
and flat data payload. -/
structure Instruction where
  program_id : Nat
  accounts : List AccountMeta
  data : List Nat
deriving DecidableEq

/-- Modelled from the spec: `crate::zk_token_proof_program::id()` is an
external fixed well-known address of the verifying program; only its
fixedness matters to the codec. -/
def zkTokenProofProgramId : Nat :=
  bytesToNatLE [0x5a, 0x6b, 0x54, 0x6f, 0x6b, 0x65, 0x6e, 0x50, 0x72, 0x6f, 0x6f, 0x66]

/-- Pubkeys of a context-state account and its authority
(`pub struct ContextStateInfo`). -/
structure ContextStateInfo where
  context_state_account : Nat
  context_state_authority : Nat
deriving DecidableEq

/-- `close_context_state`: three fixed account references and the
single close discriminant byte. -/
def close_context_state (context_state_info : ContextStateInfo)
    (destination_account : Nat) : Instruction :=
  let accounts := [AccountMeta.new context_state_info.context_state_account false,
                   AccountMeta.new destination_account false,
                   AccountMeta.new_readonly context_state_info.context_state_authority true]
  let data := [ProofInstruction.CloseContextState.toU8]
  Instruction.mk zkTokenProofProgramId accounts data

/-- `ProofInstruction::encode_verify_proof`: optional two-account
context, then one discriminant byte followed by the raw proof-data
bytes. -/
def ProofInstruction.encode_verify_proof (v : ProofInstruction)
    (context_state_info : Option ContextStateInfo) (proof_data : List Nat) : Instruction :=
  let accounts := match context_state_info with
    | some info => [AccountMeta.new info.context_state_account false,
                    AccountMeta.new_readonly info.context_state_authority false]
    | none => []
  Instruction.mk zkTokenProofProgramId accounts (v.toU8 :: proof_data)

/-- `verify_zero_balance`: bind `encode_verify_proof` to the
`VerifyZeroBalance` discriminant. -/
def verify_zero_balance (context_state_info : Option ContextStateInfo)
    (proof_data : List Nat) : Instruction :=
  ProofInstruction.VerifyZeroBalance.encode_verify_proof context_state_info proof_data

/-- `verify_withdraw`. -/
def verify_withdraw (context_state_info : Option ContextStateInfo)
    (proof_data : List Nat) : Instruction :=
  ProofInstruction.VerifyWithdraw.encode_verify_proof context_state_info proof_data

/-- `verify_ciphertext_ciphertext_equality`. -/
def verify_ciphertext_ciphertext_equality (context_state_info : Option ContextStateInfo)
    (proof_data : List Nat) : Instruction :=
  ProofInstruction.VerifyCiphertextCiphertextEquality.encode_verify_proof
    context_state_info proof_data

/-- `verify_transfer`. -/
def verify_transfer (context_state_info : Option ContextStateInfo)
    (proof_data : List Nat) : Instruction :=
  ProofInstruction.VerifyTransfer.encode_verify_proof context_state_info proof_data

/-- `verify_transfer_with_fee`. -/
def verify_transfer_with_fee (context_state_info : Option ContextStateInfo)
    (proof_data : List Nat) : Instruction :=
  ProofInstruction.VerifyTransferWithFee.encode_verify_proof context_state_info proof_data

/-- `verify_pubkey_validity`. -/
def verify_pubkey_validity (context_state_info : Option ContextStateInfo)
    (proof_data : List Nat) : Instruction :=
  ProofInstruction.VerifyPubkeyValidity.encode_verify_proof context_state_info proof_data

/-- `ProofInstruction::instruction_type`: map the first byte, when
present, back through `from_u8`. -/
def ProofInstruction.instruction_type (input : List Nat) : Option ProofInstruction :=
  match input.head? with
  | some b => ProofInstruction.fromU8 b
  | none => none

/-- `ProofInstruction::proof_data::<T, U>` for a payload type of fixed
size `size`: `input.get(1..)` is `none` on an empty buffer, and
`bytemuck::try_from_bytes` accepts exactly the right length. -/
def ProofInstruction.proof_data (size : Nat) (input : List Nat) : Option (List Nat) :=
  if input.length < 1 then none
  else
    let data := input.drop 1
    if data.length = size then some data else none

/-! ## Claims -/

/-- Claim C1: for every 16-byte key, u64 balance and 12-byte nonce
drawn during encryption, decrypting the ciphertext produced by
`encrypt` with the same key returns `some balance`. -/
theorem C1_encrypt_decrypt_roundtrip (key : AeKey) (nonce : List Nat) (balance : Nat)
    (_hkey : key.bytes.length = 16) (_hnonce : nonce.length = 12) (hbal : balance < 2 ^ 64) :
    AuthenticatedEncryption.decrypt key (AuthenticatedEncryption.encrypt key nonce balance) =
      some balance := by
  simp only [AuthenticatedEncryption.encrypt, AuthenticatedEncryption.decrypt]
  rw [aesGcmSiv_roundtrip]
  show (if (natToBytesLE 8 balance).length = 8
    then some (bytesToNatLE (natToBytesLE 8 balance)) else none) = some balance
  rw [if_pos (natToBytesLE_length 8 balance), bytesToNatLE_natToBytesLE,
    show ((256 : Nat) ^ 8 = 2 ^ 64) from by norm_num, Nat.mod_eq_of_lt hbal]

/-- Claim C1 witness: the boundary balances 0, 55 and u64::MAX
round-trip under a concrete key and nonce. -/
theorem C1_encrypt_decrypt_roundtrip_witness :
    (AeKey.mk (List.range 16)).bytes.length = 16 ∧ (List.range 12).length = 12 ∧
    AuthenticatedEncryption.decrypt (AeKey.mk (List.range 16))
      (AuthenticatedEncryption.encrypt (AeKey.mk (List.range 16)) (List.range 12) 0) = some 0 ∧
    AuthenticatedEncryption.decrypt (AeKey.mk (List.range 16))
      (AuthenticatedEncryption.encrypt (AeKey.mk (List.range 16)) (List.range 12) 55) = some 55 ∧
    AuthenticatedEncryption.decrypt (AeKey.mk (List.range 16))
      (AuthenticatedEncryption.encrypt (AeKey.mk (List.range 16)) (List.range 12) (2 ^ 64 - 1)) =
        some (2 ^ 64 - 1) :=
  ⟨by decide, by decide,
   C1_encrypt_decrypt_roundtrip _ _ _ (by decide) (by decide) (by norm_num),
   C1_encrypt_decrypt_roundtrip _ _ _ (by decide) (by decide) (by norm_num),
   C1_encrypt_decrypt_roundtrip _ _ _ (by decide) (by decide) (by norm_num)⟩

/-- Claim C2: serialization round-trips for well-formed ciphertexts,
`from_bytes` rejects every length other than 36, and every 36-byte
buffer parses into the first 12 bytes as nonce and the remaining 24 as
ciphertext. -/
theorem C2_serialization_roundtrip :
    (∀ c : AeCiphertext, c.nonce.length = 12 → c.ciphertext.length = 24 →
        AeCiphertext.from_bytes c.to_bytes = some c) ∧
    (∀ bytes : List Nat, bytes.length ≠ 36 → AeCiphertext.from_bytes bytes = none) ∧
    (∀ bytes : List Nat, bytes.length = 36 →
        AeCiphertext.from_bytes bytes =
          some (AeCiphertext.mk (bytes.take 12) (bytes.drop 12))) := by
  refine ⟨?_, ?_, ?_⟩
  · rintro ⟨nonce, ct⟩ hn hc
    simp only at hn hc
    have hlen : (nonce ++ ct).length = 36 := by rw [List.length_append, hn, hc]
    simp only [AeCiphertext.to_bytes, AeCiphertext.from_bytes]
    rw [if_pos hlen]
    have ht : (nonce ++ ct).take 12 = nonce := by rw [← hn]; exact List.take_left nonce ct
    have hd : (nonce ++ ct).drop 12 = ct := by rw [← hn]; exact List.drop_left nonce ct
    rw [ht, hd]
  · intro bytes hne
    rw [AeCiphertext.from_bytes, if_neg hne]
  · intro bytes he
    rw [AeCiphertext.from_bytes, if_pos he]

/-- Claim C2 witness: a concrete round-trip, a 35-byte rejection and a
concrete 36-byte parse. -/
theorem C2_serialization_roundtrip_witness :
    AeCiphertext.from_bytes
        (AeCiphertext.mk (List.replicate 12 1) (List.replicate 24 2)).to_bytes =
      some (AeCiphertext.mk (List.replicate 12 1) (List.replicate 24 2)) ∧
    AeCiphertext.from_bytes (List.replicate 35 0) = none ∧
    AeCiphertext.from_bytes (List.range 36) =
      some (AeCiphertext.mk ((List.range 36).take 12) ((List.range 36).drop 12)) :=
  ⟨C2_serialization_roundtrip.1 _ (by decide) (by decide),
   C2_serialization_roundtrip.2.1 _ (by decide),
   C2_serialization_roundtrip.2.2 _ (by decide)⟩

/-- Claim C3: for every verify-operation variant, with or without a
context, `instruction_type` recovers the variant from the encoded data
and `proof_data` (at the fixed payload size bound to the variant)
recovers the original payload bytes. -/
theorem C3_encode_decode_symmetry (v : ProofInstruction)
    (ctx : Option ContextStateInfo) (p : List Nat) :
    ProofInstruction.instruction_type (v.encode_verify_proof ctx p).data = some v ∧
    ProofInstruction.proof_data p.length (v.encode_verify_proof ctx p).data = some p := by
  constructor
  · cases v <;>
      simp [ProofInstruction.encode_verify_proof, ProofInstruction.instruction_type,
        ProofInstruction.fromU8, ProofInstruction.toU8]
  · simp [ProofInstruction.encode_verify_proof, ProofInstruction.proof_data]

/-- Claim C4: `encode_verify_proof` emits the two fixed account
references when a context is supplied (context account writable
non-signer, authority read-only non-signer), no account references
otherwise; its data is the discriminant byte followed by the raw
payload, and its target is the fixed program address. -/
theorem C4_encode_verify_proof_shape (v : ProofInstruction) (p : List Nat) :
    (∀ info : ContextStateInfo,
        (v.encode_verify_proof (some info) p).accounts =
          [AccountMeta.mk info.context_state_account false true,
           AccountMeta.mk info.context_state_authority false false]) ∧
    (v.encode_verify_proof none p).accounts = [] ∧
    (∀ ctx : Option ContextStateInfo,
        (v.encode_verify_proof ctx p).data = v.toU8 :: p ∧
        (v.encode_verify_proof ctx p).program_id = zkTokenProofProgramId) := by
  refine ⟨fun info => ?_, ?_, fun ctx => ⟨?_, ?_⟩⟩ <;>
    simp [ProofInstruction.encode_verify_proof, AccountMeta.new, AccountMeta.new_readonly]

/-- Claim C5: `close_context_state` produces exactly the three fixed
account references in order (context account writable non-signer,
destination writable non-signer, authority read-only signer) and a
one-byte payload holding the close discriminant, which is 0. -/
theorem C5_close_context_state_shape (info : ContextStateInfo) (destination : Nat) :
    (close_context_state info destination).accounts =
      [AccountMeta.mk info.context_state_account false true,
       AccountMeta.mk destination false true,
       AccountMeta.mk info.context_state_authority true false] ∧
    (close_context_state info destination).data = [ProofInstruction.CloseContextState.toU8] ∧
    ProofInstruction.CloseContextState.toU8 = 0 := by
  refine ⟨?_, rfl, rfl⟩
  simp [close_context_state, AccountMeta.new, AccountMeta.new_readonly]

/-- Claim C6: a default (all-zero) signature over the derivation
message makes `AeKey::new` fail; signer errors propagate; otherwise the
key is the first 16 bytes of the signature. -/
theorem C6_derive_key_behaviour (signer : SignerModel) (address : Nat) :
    (∀ e, signer.tryPubkey = .error e → AeKey.new signer address = .error e) ∧
    (∀ pubkey e, signer.tryPubkey = .ok pubkey →
        signer.trySignMessage (aeKeyDeriveMessage address pubkey) = .error e →
        AeKey.new signer address = .error e) ∧
    (∀ pubkey signature, signer.tryPubkey = .ok pubkey →
        signer.trySignMessage (aeKeyDeriveMessage address pubkey) = .ok signature →
        signature = defaultSignature →
        AeKey.new signer address = .error (.custom "Rejecting default signature")) ∧
    (∀ pubkey signature, signer.tryPubkey = .ok pubkey →
        signer.trySignMessage (aeKeyDeriveMessage address pubkey) = .ok signature →
        signature ≠ defaultSignature →
        AeKey.new signer address = .ok (AeKey.mk (signature.take 16))) := by
  refine ⟨?_, ?_, ?_, ?_⟩
  · intro e he
    simp only [AeKey.new, he]
  · intro pubkey e hp hs
    simp only [AeKey.new, hp, hs]
  · intro pubkey signature hp hs hdef
    simp only [AeKey.new, hp, hs]
    rw [if_pos hdef]
  · intro pubkey signature hp hs hdef
    simp only [AeKey.new, hp, hs]
    rw [if_neg hdef]

/-- Claim C6 witness: concrete signers exercising the default-signature
rejection, both error propagations and the successful derivation. -/
theorem C6_derive_key_behaviour_witness :
    AeKey.new (SignerModel.mk (.ok 1) (fun _ => .ok defaultSignature)) 2 =
      .error (.custom "Rejecting default signature") ∧
    AeKey.new (SignerModel.mk (.error (.other "no pubkey")) (fun _ => .ok [])) 2 =
      .error (.other "no pubkey") ∧
    AeKey.new (SignerModel.mk (.ok 1) (fun _ => .error (.other "sign failed"))) 2 =
      .error (.other "sign failed") ∧
    AeKey.new (SignerModel.mk (.ok 1) (fun _ => .ok (List.replicate 64 3))) 2 =
      .ok (AeKey.mk ((List.replicate 64 3).take 16)) :=
  ⟨(C6_derive_key_behaviour _ 2).2.2.1 1 defaultSignature rfl rfl rfl,
   (C6_derive_key_behaviour _ 2).1 (.other "no pubkey") rfl,
   (C6_derive_key_behaviour _ 2).2.1 1 (.other "sign failed") rfl rfl,
   (C6_derive_key_behaviour _ 2).2.2.2 1 (List.replicate 64 3) rfl rfl (by decide)⟩

/-- Claim C7: `from_seed` fails exactly on seeds shorter than 16 bytes,
and on success the key is the first 16 bytes of the SHA3-512 digest of
the seed. -/
theorem C7_from_seed_boundary (seed : List Nat) :
    ((∃ e, AeKey.from_seed seed = .error e) ↔ seed.length < 16) ∧
    (16 ≤ seed.length →
        AeKey.from_seed seed = .ok (AeKey.mk ((sha3_512 seed).take 16))) := by
  constructor
  · constructor
    · rintro ⟨e, he⟩
      by_contra h
      rw [AeKey.from_seed, if_neg h] at he
      simp at he
    · intro h
      exact ⟨"Seed is too short", by rw [AeKey.from_seed, if_pos h]⟩
  · intro h
    rw [AeKey.from_seed, if_neg (by omega)]

/-- Claim C7 witness: a 15-byte seed fails and a 16-byte seed succeeds
with the first 16 digest bytes. -/
theorem C7_from_seed_boundary_witness :
    (∃ e, AeKey.from_seed (List.replicate 15 7) = .error e) ∧
    AeKey.from_seed (List.replicate 16 7) =
      .ok (AeKey.mk ((sha3_512 (List.replicate 16 7)).take 16)) :=
  ⟨(C7_from_seed_boundary _).1.mpr (by decide), (C7_from_seed_boundary _).2 (by decide)⟩

/-- Claim C8: `instruction_type` returns `none` for any first byte
outside the seven declared discriminants 0 to 6 and returns the variant
of ordinal `b` for a first byte `b` at most 6, with the ordinal mapping
of the encoder. -/
theorem C8_discriminant_range (b : Nat) (rest : List Nat) :
    (7 ≤ b → ProofInstruction.instruction_type (b :: rest) = none) ∧
    (b ≤ 6 → ∃ v : ProofInstruction,
        ProofInstruction.instruction_type (b :: rest) = some v ∧ v.toU8 = b) := by
  have hhead : ProofInstruction.instruction_type (b :: rest) = ProofInstruction.fromU8 b := rfl
  constructor
  · intro h7
    obtain ⟨k, hk⟩ := Nat.exists_eq_add_of_le h7
    rw [hhead, hk, Nat.add_comm 7 k]
    rfl
  · intro h6
    rw [hhead]
    interval_cases b
    · exact ⟨.CloseContextState, rfl, rfl⟩
    · exact ⟨.VerifyZeroBalance, rfl, rfl⟩
    · exact ⟨.VerifyWithdraw, rfl, rfl⟩
    · exact ⟨.VerifyCiphertextCiphertextEquality, rfl, rfl⟩
    · exact ⟨.VerifyTransfer, rfl, rfl⟩
    · exact ⟨.VerifyTransferWithFee, rfl, rfl⟩
    · exact ⟨.VerifyPubkeyValidity, rfl, rfl⟩

/-- Claim C8 witness: first byte 7 is rejected and first byte 3 maps to
the variant of ordinal 3. -/
theorem C8_discriminant_range_witness :
    ProofInstruction.instruction_type (7 :: [1, 2]) = none ∧
    (∃ v : ProofInstruction,
        ProofInstruction.instruction_type (3 :: [1, 2]) = some v ∧ v.toU8 = 3) :=
  ⟨(C8_discriminant_range 7 [1, 2]).1 (by norm_num),
   (C8_discriminant_range 3 [1, 2]).2 (by norm_num)⟩

/-- Claim C9: `instruction_type` depends only on the first byte: it
returns `none` on the empty buffer, is unchanged by trailing bytes, and
yields the decoded variant for any valid first byte regardless of the
tail. -/
theorem C9_first_byte_only (b : Nat) (rest rest2 : List Nat) :
    ProofInstruction.instruction_type [] = none ∧
    ProofInstruction.instruction_type (b :: rest) =
      ProofInstruction.instruction_type (b :: rest2) ∧
    (∀ v : ProofInstruction, ProofInstruction.fromU8 b = some v →
        ProofInstruction.instruction_type (b :: rest) = some v) := by
  refine ⟨rfl, rfl, fun v hv => ?_⟩
  rw [show ProofInstruction.instruction_type (b :: rest) = ProofInstruction.fromU8 b from rfl, hv]

/-- Claim C9 witness: a valid first byte decodes the same way with an
arbitrary tail. -/
theorem C9_first_byte_only_witness :
    ProofInstruction.instruction_type (0 :: [9, 9, 9]) = some ProofInstruction.CloseContextState :=
  (C9_first_byte_only 0 [9, 9, 9] []).2.2 ProofInstruction.CloseContextState rfl

theorem jsonByte_mapM_length :
    ∀ (elems : List JsonValue) (bytes : List Nat),
      elems.mapM jsonByte = some bytes → bytes.length = elems.length := by
  intro elems
  induction elems with
  | nil =>
    intro bytes h
    simp only [List.mapM_nil, pure, Option.some.injEq] at h
    simp [← h]
  | cons e es ih =>
    intro bytes h
    simp only [List.mapM_cons] at h
    cases hje : jsonByte e with
    | none => rw [hje] at h; simp at h
    | some b =>
      rw [hje] at h
      cases hes : es.mapM jsonByte with
      | none => rw [hes] at h; simp at h
      | some bs =>
        rw [hes] at h
        simp at h
        subst h
        simp [ih bs hes]

theorem jsonByte_mapM_map_num (bytes : List Nat) :
    (∀ b ∈ bytes, b < 256) → (bytes.map JsonValue.num).mapM jsonByte = some bytes := by
  induction bytes with
  | nil => intro _; rfl
  | cons b bs ih =>
    intro h
    simp only [List.map_cons, List.mapM_cons]
    rw [show jsonByte (JsonValue.num b) = some b from by
      simp [jsonByte, h b (List.mem_cons_self b bs)]]
    rw [ih (fun x hx => h x (List.mem_cons_of_mem b hx))]
    rfl

/-- Claim C10: writing a key produces the JSON array of its 16 raw
bytes and reading it back recovers the key; reading any JSON array
whose length is not 16 fails. -/
theorem C10_key_file_roundtrip (key : AeKey) :
    (key.bytes.length = 16 → (∀ b ∈ key.bytes, b < 256) →
        AeKey.read (AeKey.write key) = some key) ∧
    (∀ elems : List JsonValue, elems.length ≠ 16 →
        AeKey.read (JsonValue.arr elems) = none) := by
  constructor
  · intro hlen hbytes
    simp only [AeKey.write, AeKey.read]
    rw [jsonByte_mapM_map_num key.bytes hbytes]
    simp only [if_pos hlen]
  · intro elems hne
    simp only [AeKey.read]
    cases hm : elems.mapM jsonByte with
    | none => rfl
    | some bytes =>
      have hl := jsonByte_mapM_length elems bytes hm
      show (if bytes.length = 16 then some (AeKey.mk bytes) else none) = none
      rw [if_neg (by omega)]

/-- Claim C10 witness: a concrete 16-byte key round-trips through the
key-file form and the empty JSON array is rejected. -/
theorem C10_key_file_roundtrip_witness :
    AeKey.read (AeKey.write (AeKey.mk (List.range 16))) = some (AeKey.mk (List.range 16)) ∧
    AeKey.read (JsonValue.arr []) = none :=
  ⟨(C10_key_file_roundtrip _).1 (by decide) (by decide),
   (C10_key_file_roundtrip (AeKey.mk (List.range 16))).2 [] (by decide)⟩
